import Mathlib

/-!
Shallow embedding of the MagicQC live-measurement core
(`src/python-core/integration.py`) and verification of its specification
claims.

Conventions of the embedding:
* Python floats are modelled as exact rationals (`ℚ`); where the source
  compares a Euclidean norm `sqrt(d)` against a nonnegative constant `c`,
  the embedding uses the mathematically equivalent squared comparison
  `d < c^2` so that the definitions stay executable.  Quantities whose
  *value* (not just a comparison) depends on `sqrt` — the cosine
  consistency average and the scale-change estimator — are embedded over
  `ℝ` with `Real.sqrt`.
* OpenCV calls (feature detection, knn matching, `findHomography`,
  template correlation, corner detection) are image-dependent external
  computations; they enter the model as oracle fields of an `Env` record
  whose values stand for what cv2 returned on the current frame.  All
  arithmetic and control flow downstream of those calls is embedded
  directly from the source.
* A Python local that may be unbound (`matches` in
  `transfer_keypoints_robust`) is modelled as an `Option`; evaluating it
  raises, which the embedding models in the `Except` monad, and the
  function-level `try/except` handlers become `Except` handlers.
-/

namespace MagicQC

/-- A 2-D point; Python stores keypoints as `[x, y]` lists of floats. -/
abbrev Pt : Type := ℚ × ℚ

/-! ### Annotation loading: role parsing and legacy positional inference
(`load_annotation`, integration.py lines 260-294).  Only the keypoint/role
portion is embedded; file IO, logging and the reference-image load are
external.  A JSON entry is `[x, y]` (no role) or `[x, y, role]`. -/

/-- One entry of the JSON `keypoints` array: coordinates plus an optional
explicit role string (`role = none` models a 2-element `[x, y]` entry,
`role = some r` a 3-element `[x, y, r]` entry). -/
structure KpEntry where
  x : ℚ
  y : ℚ
  role : Option String
deriving Repr, DecidableEq

/-- First pass of `load_annotation`: each entry's explicit role, with
2-element entries defaulting to "normal" (lines 272-280). -/
def parse_keypoint_types (data : List KpEntry) : List String :=
  data.map (fun k => k.role.getD "normal")

/-- `any(len(kp_data) == 3 for kp_data in keypoints_data)` (line 286). -/
def has_any_typed (data : List KpEntry) : Bool :=
  data.any (fun k => k.role.isSome)

/-- The legacy positional override applied by lines 288-293: indices
below 12 become "corner", indices 12-17 become "perp", later indices keep
their current value (which is "normal" whenever this override runs). -/
def legacy_positional_types (types : List String) : List String :=
  (List.range types.length).map (fun i =>
    if i < 12 then "corner" else if i < 18 then "perp" else types.getD i "normal")

/-- Role loading of `load_annotation` (lines 267-294): parse explicit
roles, then apply legacy positional inference only when the list is
nonempty, every parsed role is "normal", and no entry carried an explicit
role. -/
def load_keypoint_types (data : List KpEntry) : List String :=
  let types := parse_keypoint_types data
  if 0 < types.length ∧ types.all (fun t => t = "normal") then
    if ¬ has_any_typed data then legacy_positional_types types else types
  else
    types

/-! ### QC check (`check_qc`, integration.py lines 1571-1592). -/

/-- Association-list lookup standing for a Python `dict` with `Nat` keys
(first binding wins; the dicts in the source have unique keys). -/
def dict_find {β : Type} (l : List (Nat × β)) (k : Nat) : Option β :=
  (l.find? (fun e => e.1 == k)).map (fun e => e.2)

/-- `check_qc(pair_num, measured_distance)`: auto-pass when the pair has
no configured target distance, otherwise pass iff the deviation is within
the global tolerance.  Returns the boolean result together with the
updated `qc_results` store (modelled as a function `Nat → Option String`).
-/
def check_qc (targets : List (Nat × ℚ)) (tol : ℚ)
    (qcResults : Nat → Option String) (pairNum : Nat) (measured : ℚ) :
    Bool × (Nat → Option String) :=
  match dict_find targets pairNum with
  | none => (true, fun k => if k = pairNum then some "PASS" else qcResults k)
  | some target =>
    if |measured - target| ≤ tol then
      (true, fun k => if k = pairNum then some "PASS" else qcResults k)
    else
      (false, fun k => if k = pairNum then some "FAIL" else qcResults k)

/-! ### Live snapshot emission (`save_live_measurements`,
integration.py lines 2613-2773).  Directory resolution, JSON encoding and
the actual file IO are external; the snapshot contents, the call counter
and the return value are embedded.  The atomic write (lines 2742-2750) is
modelled as succeeding; it happens before the diagnostic block.  String
display fields (entry names, spec codes) are omitted: they never influence
control flow before the point where the diagnostic block raises. -/

/-- One measurement tuple `(pair_num, real_distance, pixel_distance,
qc_passed[, is_fallback])` as produced by the live loop.  `real` is an
`Option` because merged cache entries test `real_dist is not None`. -/
structure Meas where
  pairNum : Nat
  real : Option ℚ
  px : ℚ
  qc : Bool
  fb : Bool := false
deriving Repr, DecidableEq

/-- One entry of `measurement_specs` (UI-provided); `spec.get(key,
default)` accesses are modelled by fields with the same defaults. -/
structure Spec where
  dbId : Option Nat := none
  expected : Option ℚ := none
  tolPlus : ℚ := 1
  tolMinus : ℚ := 1
deriving Repr, DecidableEq

/-- One per-pair entry of the emitted `live_measurements.json` snapshot. -/
structure Entry where
  id : Nat
  specId : Option Nat
  actualCm : Option ℚ
  px : ℚ
  expected : Option ℚ
  tolPlus : ℚ
  tolMinus : ℚ
  qc : Bool
  isFallback : Bool
deriving Repr, DecidableEq

/-- The data recorded for a pair in the `measured_by_pair` dict. -/
structure PairData where
  real : Option ℚ
  px : ℚ
  qc : Bool
  isFallback : Bool
  fromCurrentFrame : Bool
deriving Repr, DecidableEq

/-- `measured_by_pair` (lines 2670-2696) as a lookup function: current
frame entries first (later duplicates overwrite, hence the reversed
search), then cached `last_measurements` entries with a positive real
distance fill the remaining keys (first qualifying occurrence wins). -/
def measured_by_pair (ms last : List Meas) (pn : Nat) : Option PairData :=
  match (ms.reverse).find? (fun m => m.pairNum == pn) with
  | some m => some ⟨m.real, m.px, m.qc, m.fb, true⟩
  | none =>
    match last.find? (fun m =>
        m.pairNum == pn && m.real.isSome && decide (0 < m.real.getD 0)) with
    | some m => some ⟨m.real, m.px, m.qc, true, false⟩
    | none => none

/-- Python's `round(q, 2)` (the float banker's rounding is approximated
by rounding `100*q` to the nearest integer; no claim depends on ties). -/
def round2 (q : ℚ) : ℚ := (round (q * 100) : ℤ) / 100

/-- `max_pairs = max(len(specs), max(measured_by_pair.keys()) or 0)`
(lines 2699-2702): the candidate keys are those of the two input lists. -/
def max_pairs (ms last : List Meas) (specs : List Spec) : Nat :=
  max specs.length
    (((ms ++ last).filterMap (fun m =>
      if (measured_by_pair ms last m.pairNum).isSome then some m.pairNum
      else none)).foldr max 0)

/-- Building one snapshot entry for `pair_num` (lines 2705-2739): a pair
present in `measured_by_pair` reports its (rounded) measurement, a pair
never measured reports `actual_cm = none`, `pixel_distance = 0`,
`qc_passed = false`, `is_fallback = true`. -/
def mk_entry (ms last : List Meas) (specs : List Spec) (pairNum : Nat) : Entry :=
  let spec := specs.get? (pairNum - 1)
  let data := measured_by_pair ms last pairNum
  let realD : Option ℚ := match data with
    | some d => d.real
    | none => none
  let pxD : ℚ := match data with
    | some d => d.px
    | none => 0
  let qcD : Bool := match data with
    | some d => d.qc
    | none => false
  let fbD : Bool := match data with
    | some d => d.isFallback
    | none => true
  { id := pairNum
    specId := (spec.map (fun s => s.dbId)).getD none
    actualCm := realD.map round2
    px := round2 pxD
    expected := (spec.map (fun s => s.expected)).getD none
    tolPlus := (spec.map (fun s => s.tolPlus)).getD 1
    tolMinus := (spec.map (fun s => s.tolMinus)).getD 1
    qc := qcD
    isFallback := fbD }

/-- The `measurements` array of the snapshot: one entry per pair index
`1 .. max_pairs`. -/
def build_snapshot (ms last : List Meas) (specs : List Spec) : List Entry :=
  (List.range (max_pairs ms last specs)).map (fun k => mk_entry ms last specs (k + 1))

/-- Result of one `save_live_measurements` call: the boolean return
value, whether the snapshot file was written (it is, before the
diagnostic block), the emitted snapshot, and the updated call counter. -/
structure SaveResult where
  ret : Bool
  fileWritten : Bool
  snapshot : List Entry
  newCount : Nat
deriving Repr, DecidableEq

/-- `save_live_measurements(measurements, ...)` (lines 2613-2773).  The
snapshot is built and atomically written, the call counter is
incremented, and then — on every call whose incremented counter is
`1 mod 30`, including the very first — the diagnostic `print` at line
2760 evaluates the name `live_file_abs`, which is defined nowhere in the
function or module, so a `NameError` is raised and the outer handler
(lines 2771-2773) returns `False`.  All other calls return `True`. -/
def save_live_measurements (ms last : List Meas) (specs : List Spec)
    (count : Nat) : SaveResult :=
  let snapshot := build_snapshot ms last specs
  let count' := count + 1
  if count' % 30 = 1 then
    -- NameError on `live_file_abs`, caught by the outer `except`
    ⟨false, true, snapshot, count'⟩
  else
    ⟨true, true, snapshot, count'⟩

/-! ### Transfer engine and fusion/stabilization
(`integration.py` lines 830-1483). -/

/-- A cv2 `DMatch`: index of the matched reference descriptor, index of
the matched current-frame descriptor, and the Hamming distance. -/
structure DMatch where
  queryIdx : Nat
  trainIdx : Nat
  dist : ℚ
deriving Repr, DecidableEq

/-- Constant `self.min_matches = 15` (line 78). -/
def min_matches : Nat := 15

/-- `match_features_fast` (lines 830-849) applied to the knn result:
keep `m` from each 2-element pair `[m, n]` with
`m.distance < 0.75 * n.distance` (`good_match_ratio = 0.75`). -/
def match_features_fast (knnPairs : List (List DMatch)) : List DMatch :=
  knnPairs.filterMap (fun pr =>
    match pr with
    | [m, nb] => if m.dist < 3/4 * nb.dist then some m else none
    | _ => none)

/-- A 3x3 homography matrix as returned by `cv2.findHomography`. -/
structure HMat where
  m00 : ℚ
  m01 : ℚ
  m02 : ℚ
  m10 : ℚ
  m11 : ℚ
  m12 : ℚ
  m20 : ℚ
  m21 : ℚ
  m22 : ℚ
deriving Repr, DecidableEq

/-- `np.linalg.det` of a 3x3 matrix (cofactor expansion). -/
def det3 (H : HMat) : ℚ :=
  H.m00 * (H.m11 * H.m22 - H.m12 * H.m21)
    - H.m01 * (H.m10 * H.m22 - H.m12 * H.m20)
    + H.m02 * (H.m10 * H.m21 - H.m11 * H.m20)

/-- `cv2.perspectiveTransform` of a single point.  When the projective
denominator vanishes cv2 produces non-finite floats; the embedding uses
Lean's `x / 0 = 0` convention there — no claim depends on that case. -/
def persp (H : HMat) (p : Pt) : Pt :=
  let w := H.m20 * p.1 + H.m21 * p.2 + H.m22
  ((H.m00 * p.1 + H.m01 * p.2 + H.m02) / w,
   (H.m10 * p.1 + H.m11 * p.2 + H.m12) / w)

/-- Per-session configuration selected for the current side: the
annotated keypoints, their role strings, and `transfer_method`
(default "homography", line 111). -/
structure Config where
  keypoints : List Pt
  types : List String
  method : String := "homography"

/-- Oracle record for the image-dependent cv2 results on one frame:
whether the reference grayscale image is loaded, the counts of combined
reference/current descriptors (a `None` descriptor set and an empty one
coincide in the `is not None and len > 0` guard, so only the count
matters), the detected keypoint coordinate lists, the raw knn match
pairs, the `findHomography` output on the matched correspondences, the
smoothed scale estimate (its arithmetic is embedded separately as
`estimate_scale_change`), and the template-matching / corner-detection
results as functions of the scale factor they are invoked with. -/
structure Env where
  refGrayPresent : Bool
  refDescCount : Nat
  currDescCount : Nat
  refKp : List Pt
  currKp : List Pt
  knnPairs : List (List DMatch)
  findHom : Option HMat
  scaleEst : ℚ
  templateMatch : ℚ → List Pt
  cornerDetect : ℚ → List Nat → List Pt

/-- Mutable tracking state of the engine that the embedded methods read
and write (`last_valid_keypoints`, the static-lock map and flag, the
stability counter/flag).  `last_detected_scale` lives with
`estimate_scale_change`, which is embedded separately. -/
structure TrackState where
  lastValid : List Pt
  lockInit : Bool
  lockMap : List (Nat × Pt)
  stabFrames : Nat
  stabilized : Bool

/-- `transfer_with_homography` (lines 851-887), with
`cv2.findHomography` as an oracle: below `min_matches` or on rejection
(no homography, or `|det|` outside `(0.1, 10.0)`) the Python returns
`(None, [])`; on acceptance every annotated keypoint is mapped through
the homography.  Only the point list (the second component) is returned —
the pipeline tests its truthiness. -/
def transfer_with_homography (env : Env) (cfg : Config) (ms : List DMatch) :
    List Pt :=
  if ms.length < min_matches then []
  else
    match env.findHom with
    | none => []
    | some H =>
      if 1/10 < |det3 H| ∧ |det3 H| < 10 then cfg.keypoints.map (persp H)
      else []

/-- The MLS weight of one match for a reference keypoint (lines
910-915): `1e6` when the reference distance is below `1e-6` (squared:
`1e-12`), else `1 / distance ** (2 * alpha)` with `alpha = 1.0`, i.e. the
reciprocal of the exact squared distance. -/
def mls_weight (refPt src : Pt) : ℚ :=
  let d2 := (refPt.1 - src.1) ^ 2 + (refPt.2 - src.2) ^ 2
  if d2 < 1 / 1000000000000 then 1000000 else 1 / d2

/-- One keypoint of `transfer_with_mls` (lines 901-926): the weighted
average of the matches' current-frame locations, `(-1, -1)` if the total
weight is not positive.  Out-of-range match indices (which cv2 never
produces) default to `(0, 0)`. -/
def mls_point (env : Env) (ms : List DMatch) (refPt : Pt) : Pt :=
  let total := (ms.map (fun m => mls_weight refPt (env.refKp.getD m.queryIdx (0, 0)))).sum
  let wx := (ms.map (fun m =>
    mls_weight refPt (env.refKp.getD m.queryIdx (0, 0)) * (env.currKp.getD m.trainIdx (0, 0)).1)).sum
  let wy := (ms.map (fun m =>
    mls_weight refPt (env.refKp.getD m.queryIdx (0, 0)) * (env.currKp.getD m.trainIdx (0, 0)).2)).sum
  if 0 < total then (wx / total, wy / total) else (-1, -1)

/-- `transfer_with_mls` (lines 889-932): `(None, [])` below 4 matches,
otherwise one locally-weighted coordinate per annotated keypoint. -/
def transfer_with_mls (env : Env) (cfg : Config) (ms : List DMatch) :
    List Pt :=
  if ms.length < 4 then [] else cfg.keypoints.map (mls_point env ms)

/-- Lines 1261-1278 of `transfer_keypoints_robust` given that `matches`
is bound: feature-based points.  With at least `min_matches` good
matches, homography is attempted when there are at least 20 matches and
the method policy allows it (falling back to MLS when the returned point
list is empty / falsy); otherwise MLS directly.  Below `min_matches`,
`(-1, -1)` for every annotated keypoint. -/
def compute_feature_points (env : Env) (cfg : Config) (ms : List DMatch) :
    List Pt :=
  if min_matches ≤ ms.length then
    if 20 ≤ ms.length ∧ (cfg.method = "homography" ∨ cfg.method = "auto") then
      let hp := transfer_with_homography env cfg ms
      if hp.isEmpty then transfer_with_mls env cfg ms else hp
    else
      transfer_with_mls env cfg ms
  else
    List.replicate cfg.keypoints.length ((-1 : ℚ), (-1 : ℚ))

/-- The scale factor of lines 1256-1262: initialized to `1.0`, updated
from the scale estimator only when at least `min_matches` good matches
exist (the estimator itself is embedded as `estimate_scale_change`; its
frame value enters through the `Env`). -/
def scale_factor_of (env : Env) (ms : List DMatch) : ℚ :=
  if min_matches ≤ ms.length then env.scaleEst else 1

/-- `corner_indices = [i for i, t in enumerate(types) if t == 'corner']`
(line 1286). -/
def corner_indices (types : List String) : List Nat :=
  (List.range types.length).filter (fun i => types.getD i "" == "corner")

/-- Indices of perpendicular-role keypoints (lines 1290, 1374). -/
def perp_indices (types : List String) : List Nat :=
  (List.range types.length).filter (fun i => types.getD i "" == "perp")

/-- Fusion of one normal-role point (lines 1339-1364): when both the
feature candidate and the template candidate are valid, blend them if
they are within 25 px (squared: 625) with weight 0.7/0.3 or 0.4/0.6
depending on whether `len(matches) >= min_matches` — note that this
branch evaluates `matches`, which raises when it is unbound; when they
disagree, keep the candidate of the currently trusted method; otherwise
whichever single candidate is valid; else `(-1, -1)`.  Validity is the
source's `pt[0] != -1` test. -/
def fuse_normal (numMatches : Option Nat) (feat temp : Pt) : Except Unit Pt :=
  if feat.1 ≠ -1 ∧ temp.1 ≠ -1 then
    -- this branch evaluates `len(matches)`; unbound `matches` raises here
    match numMatches with
    | none => Except.error ()
    | some k =>
      let d2 := (feat.1 - temp.1) ^ 2 + (feat.2 - temp.2) ^ 2
      if d2 < 625 then
        let w : ℚ := if min_matches ≤ k then 7/10 else 2/5
        Except.ok (feat.1 * w + temp.1 * (1 - w), feat.2 * w + temp.2 * (1 - w))
      else if min_matches ≤ k then Except.ok feat
      else Except.ok temp
  else if feat.1 ≠ -1 then Except.ok feat
  else if temp.1 ≠ -1 then Except.ok temp
  else Except.ok ((-1 : ℚ), (-1 : ℚ))

/-- The fusion loop of lines 1299-1364, recursing over the keypoint
indices and carrying `corner_idx_counter`.  A corner-role point (while
corner results remain) prefers corner detection, then feature, then
template; a perpendicular-role point returns its static-lock coordinate
once the lock map holds it, else feature then template; any other point
(including a corner-role point after the corner results are exhausted)
uses `fuse_normal`. -/
def fuse_go (numMatches : Option Nat) (types : List String) (lockInit : Bool)
    (lockMap : List (Nat × Pt)) (featPts tempPts cornerPts : List Pt) :
    List Nat → Nat → Except Unit (List Pt)
  | [], _ => Except.ok []
  | i :: rest, counter =>
    let ty := types.getD i "normal"
    let feat := featPts.getD i (-1, -1)
    let temp := tempPts.getD i (-1, -1)
    if ty = "corner" ∧ counter < cornerPts.length then
      let cp := cornerPts.getD counter (-1, -1)
      let pt : Pt :=
        if cp.1 ≠ -1 then cp
        else if feat.1 ≠ -1 then feat
        else if temp.1 ≠ -1 then temp
        else (-1, -1)
      (fuse_go numMatches types lockInit lockMap featPts tempPts cornerPts rest
        (counter + 1)).map (fun l => pt :: l)
    else if ty = "perp" then
      let pt : Pt :=
        if lockInit = true ∧ (dict_find lockMap i).isSome then
          (dict_find lockMap i).getD (-1, -1)
        else if feat.1 ≠ -1 then feat
        else if temp.1 ≠ -1 then temp
        else (-1, -1)
      (fuse_go numMatches types lockInit lockMap featPts tempPts cornerPts rest
        counter).map (fun l => pt :: l)
    else
      match fuse_normal numMatches feat temp with
      | Except.error e => Except.error e
      | Except.ok pt =>
        match fuse_go numMatches types lockInit lockMap featPts tempPts
            cornerPts rest counter with
        | Except.error e => Except.error e
        | Except.ok l => Except.ok (pt :: l)

/-- The whole fusion step (METHOD 5, lines 1292-1364). -/
def fuse_points (numMatches : Option Nat) (n : Nat) (types : List String)
    (lockInit : Bool) (lockMap : List (Nat × Pt))
    (featPts tempPts cornerPts : List Pt) : Except Unit (List Pt) :=
  fuse_go numMatches types lockInit lockMap featPts tempPts cornerPts
    (List.range n) 0

/-- The movement vectors collected by `check_coordinated_movement`
(lines 1453-1464): displacement of every point other than the changed
one whose old and new positions are valid and whose magnitude exceeds
5 px (squared: 25). -/
def movement_directions (newPts lastValid : List Pt) (changed : Nat) :
    List Pt :=
  (List.range (min newPts.length lastValid.length)).filterMap (fun i =>
    let np := newPts.getD i (-1, -1)
    let lp := lastValid.getD i (-1, -1)
    if np.1 ≠ -1 ∧ lp.1 ≠ -1 ∧ i ≠ changed ∧
        25 < (np.1 - lp.1) ^ 2 + (np.2 - lp.2) ^ 2 then
      some (np.1 - lp.1, np.2 - lp.2)
    else none)

/-- The consistency average of lines 1469-1481: mean over the collected
movement vectors of the cosine similarity with the average movement
vector (terms with a zero magnitude contribute nothing, matching the
`mag1 > 0 and mag2 > 0` guard).  This is the one place in the filter
whose *value* needs `sqrt`, so it lives in `ℝ`. -/
noncomputable def consistency_avg (dirs : List Pt) : ℝ :=
  let n : ℚ := dirs.length
  let avgDx : ℚ := (dirs.map (fun d => d.1)).sum / n
  let avgDy : ℚ := (dirs.map (fun d => d.2)).sum / n
  let total : ℝ := (dirs.map (fun d =>
    if 0 < ((d.1 : ℚ) ^ 2 + (d.2 : ℚ) ^ 2 : ℚ) ∧ 0 < (avgDx ^ 2 + avgDy ^ 2 : ℚ) then
      ((d.1 * avgDx + d.2 * avgDy : ℚ) : ℝ) /
        (Real.sqrt ((d.1 ^ 2 + d.2 ^ 2 : ℚ) : ℝ) *
         Real.sqrt ((avgDx ^ 2 + avgDy ^ 2 : ℚ) : ℝ))
    else 0)).sum
  total / (n : ℝ)

/-- `check_coordinated_movement` (lines 1448-1483) as the proposition it
decides: movement counts as coordinated when fewer than 3 previous
points exist, or fewer than 2 other points are moving, or the average
cosine similarity exceeds 0.7. -/
def check_coordinated_movement (lastValid newPts : List Pt)
    (changed : Nat) : Prop :=
  lastValid.length < 3 ∨
    (movement_directions newPts lastValid changed).length < 2 ∨
    consistency_avg (movement_directions newPts lastValid changed) > 7/10

/-- The in-place static override of lines 1404-1408: write every locked
coordinate over the incoming list (`List.set` is a no-op out of range,
matching the `idx < len` guard). -/
def apply_static_override (lockMap : List (Nat × Pt)) (pts : List Pt) :
    List Pt :=
  lockMap.foldl (fun l e => l.set e.1 e.2) pts

/-- Constant `self.stabilization_threshold = 17.0` squared. -/
def stab_threshold_sq : ℚ := 289

open Classical in
/-- One point of the stabilization loop (lines 1413-1434), returning the
output position and whether it counts towards `valid_count`: an invalid
new point keeps the previous value (not valid); a static-locked index
passes through; a displacement below the jitter threshold (17 px,
squared 289) accepts the new value; above it, the new value is accepted
only when `check_coordinated_movement` holds, else the previous value is
kept. -/
noncomputable def stab_one (s : TrackState) (pts : List Pt) (i : Nat) :
    Pt × Bool :=
  let newPt := pts.getD i (-1, -1)
  let lastPt := s.lastValid.getD i (-1, -1)
  if newPt.1 = -1 ∨ newPt.2 = -1 then (lastPt, false)
  else if s.lockInit = true ∧ (dict_find s.lockMap i).isSome then (newPt, true)
  else if (newPt.1 - lastPt.1) ^ 2 + (newPt.2 - lastPt.2) ^ 2 < stab_threshold_sq then
    (newPt, true)
  else if check_coordinated_movement s.lastValid pts i then (newPt, true)
  else (lastPt, false)

/-- `stabilize_keypoints` (lines 1397-1446).  With no usable previous
frame the input is stored and returned as-is; otherwise locked
coordinates are first written over the input in place, each point is
stabilized by `stab_one`, the result becomes the new
`last_valid_keypoints`, and the consecutive-all-valid counter and the
`keypoint_stabilized` flag are updated. -/
noncomputable def stabilize_keypoints (s : TrackState) (newKeypoints : List Pt) :
    List Pt × TrackState :=
  if s.lastValid.isEmpty ∨ s.lastValid.length ≠ newKeypoints.length then
    (newKeypoints, { s with lastValid := newKeypoints })
  else
    let pts := if s.lockInit then apply_static_override s.lockMap newKeypoints
      else newKeypoints
    let results := (List.range pts.length).map (fun i => stab_one s pts i)
    let stab := results.map (fun r => r.1)
    let validCount := (results.filter (fun r => r.2)).length
    let allValid := validCount = pts.length
    let frames' := if allValid then s.stabFrames + 1 else 0
    let stabilized' :=
      if allValid then (if 2 ≤ s.stabFrames + 1 then true else s.stabilized)
      else false
    (stab, { s with lastValid := stab, stabFrames := frames',
                    stabilized := stabilized' })

/-- The all-or-nothing construction of the static map (lines 1376-1384):
`some` of the frozen coordinates when every perpendicular index has a
valid stabilized position, `none` as soon as one is invalid. -/
def build_static_map (stabPts : List Pt) : List Nat → Option (List (Nat × Pt))
  | [] => some []
  | idx :: rest =>
    if idx < stabPts.length ∧ (stabPts.getD idx (-1, -1)).1 ≠ -1 then
      (build_static_map stabPts rest).map
        (fun l => (idx, stabPts.getD idx (-1, -1)) :: l)
    else none

/-- The one-time static-lock initialization after stabilization (lines
1372-1389): requires the lock not yet built, at least 18 stabilized
points, a nonempty set of perpendicular indices, and a valid stabilized
coordinate at every one of them. -/
def init_static_lock (cfg : Config) (s : TrackState) (stabPts : List Pt) :
    TrackState :=
  if s.lockInit = false ∧ 18 ≤ stabPts.length then
    let perpFound := perp_indices cfg.types
    if perpFound.isEmpty then s
    else
      match build_static_map stabPts perpFound with
      | some m => { s with lockMap := m, lockInit := true }
      | none => s
  else s

/-- Lines 1369-1391: stabilization followed by the lock initialization. -/
noncomputable def after_fusion (cfg : Config) (s : TrackState)
    (fused : List Pt) : List Pt × TrackState :=
  let r := stabilize_keypoints s fused
  (r.1, init_static_lock cfg r.2 r.1)

/-- The body of the `try:` block of `transfer_keypoints_robust` (lines
1250-1391).  `matches` is bound only when both descriptor sets are
non-empty; the fusion loop and the unconditional
`if len(matches) >= self.min_matches:` logging guard at line 1366
evaluate it and therefore raise when it is unbound. -/
noncomputable def transfer_body (env : Env) (cfg : Config) (s : TrackState) :
    Except Unit (List Pt × TrackState) :=
  let n := cfg.keypoints.length
  let matchesOpt : Option (List DMatch) :=
    if env.refDescCount ≠ 0 ∧ env.currDescCount ≠ 0 then
      some (match_features_fast env.knnPairs)
    else none
  let featurePoints : List Pt :=
    match matchesOpt with
    | some ms => compute_feature_points env cfg ms
    | none => List.replicate n ((-1 : ℚ), (-1 : ℚ))
  let scaleFactor : ℚ :=
    match matchesOpt with
    | some ms => scale_factor_of env ms
    | none => 1
  let templatePoints := env.templateMatch scaleFactor
  let cornerPoints := env.cornerDetect scaleFactor (corner_indices cfg.types)
  match fuse_points (matchesOpt.map List.length) n cfg.types s.lockInit
      s.lockMap featurePoints templatePoints cornerPoints with
  | Except.error e => Except.error e
  | Except.ok fused =>
    -- line 1366 evaluates `len(matches)` unconditionally before the
    -- stabilization step; unbound `matches` raises here
    match matchesOpt with
    | none => Except.error ()
    | some _ => Except.ok (after_fusion cfg s fused)

/-- `transfer_keypoints_robust` (lines 1241-1395): empty immediately when
the reference grayscale image or the keypoints are missing; otherwise run
the body, and on any exception fall back to the raw template-matching
result at scale 1.0 with the tracking state untouched. -/
noncomputable def transfer_keypoints_robust (env : Env) (cfg : Config)
    (s : TrackState) : List Pt × TrackState :=
  if env.refGrayPresent = false ∨ cfg.keypoints.isEmpty then ([], s)
  else
    match transfer_body env cfg s with
    | Except.ok r => r
    | Except.error _ => (env.templateMatch 1, s)

/-! ### Scale estimation (`estimate_scale_change`, integration.py lines
934-967).  Distances here feed ratio *values*, not just comparisons, so
this component is embedded over `ℝ` with `Real.sqrt`. -/

/-- A real-coordinate point (cv2 keypoint position). -/
abbrev RPt : Type := ℝ × ℝ

/-- `np.linalg.norm` of the difference of two 2-D points. -/
noncomputable def rdist (p q : RPt) : ℝ :=
  Real.sqrt ((p.1 - q.1) ^ 2 + (p.2 - q.2) ^ 2)

/-- The index pairs `(i, j)` with `i < j` visited by the double loop at
lines 945-946, in loop order. -/
def idx_pairs (n : Nat) : List (Nat × Nat) :=
  (List.range n).flatMap (fun i =>
    ((List.range n).filter (fun j => i < j)).map (fun j => (i, j)))

open Classical in
/-- The `(ref_dist, curr_dist)` list collected at lines 942-951: for
every match pair whose reference pairwise distance exceeds the 10 px
noise floor, the reference and current pairwise distances. -/
noncomputable def ref_curr_dists (kp1 kp2 : List RPt) (ms : List DMatch) :
    List (ℝ × ℝ) :=
  let srcPts := ms.map (fun m => kp1.getD m.queryIdx (0, 0))
  let dstPts := ms.map (fun m => kp2.getD m.trainIdx (0, 0))
  (idx_pairs ms.length).filterMap (fun ij =>
    let rd := rdist (srcPts.getD ij.1 (0, 0)) (srcPts.getD ij.2 (0, 0))
    let cd := rdist (dstPts.getD ij.1 (0, 0)) (dstPts.getD ij.2 (0, 0))
    if 10 < rd then some (rd, cd) else none)

open Classical in
/-- The ratio list of line 956: `curr / ref` over the collected pairs,
guarded by the (here redundant) `ref_d > 0` test. -/
noncomputable def scale_ratio_list (kp1 kp2 : List RPt) (ms : List DMatch) :
    List ℝ :=
  (ref_curr_dists kp1 kp2 ms).filterMap (fun rc =>
    if 0 < rc.1 then some (rc.2 / rc.1) else none)

open Classical in
/-- `np.median` of a nonempty list: sort, take the middle element for an
odd count, the mean of the two middle elements for an even count. -/
noncomputable def np_median (l : List ℝ) : ℝ :=
  let s := l.mergeSort (fun a b => a ≤ b)
  if l.length % 2 = 1 then s.getD (l.length / 2) 0
  else (s.getD (l.length / 2 - 1) 0 + s.getD (l.length / 2) 0) / 2

/-- Constant `self.scale_smoothing_factor = 0.3` (line 107). -/
noncomputable def scale_smoothing_factor : ℝ := 3/10

/-- `estimate_scale_change(kp1, kp2, matches)` (lines 934-967), returning
the estimate together with the updated `last_detected_scale`: `1.0` with
the state untouched when fewer than 4 matches exist or no pair clears the
noise floor; otherwise the exponentially smoothed median ratio
`last * (1 - 0.3) + median * 0.3`, which is also stored. -/
noncomputable def estimate_scale_change (kp1 kp2 : List RPt)
    (ms : List DMatch) (lastScale : ℝ) : ℝ × ℝ :=
  if ms.length < 4 then (1, lastScale)
  else if (ref_curr_dists kp1 kp2 ms).isEmpty then (1, lastScale)
  else if (scale_ratio_list kp1 kp2 ms).isEmpty then (1, lastScale)
  else
    let medianScale := np_median (scale_ratio_list kp1 kp2 ms)
    let smoothed := lastScale * (1 - scale_smoothing_factor) +
      medianScale * scale_smoothing_factor
    (smoothed, smoothed)

/-! ## Claim theorems -/

/-- With all parsed roles "normal" and no explicitly typed entry, the
loader applies the positional override. -/
theorem load_keypoint_types_inferred (data : List KpEntry)
    (h1 : 0 < (parse_keypoint_types data).length)
    (h2 : ∀ t ∈ parse_keypoint_types data, t = "normal")
    (h3 : has_any_typed data = false) :
    load_keypoint_types data = legacy_positional_types (parse_keypoint_types data) := by
  rw [load_keypoint_types]
  rw [if_pos ⟨h1, List.all_eq_true.mpr (fun t ht => by simpa using h2 t ht)⟩]
  rw [if_pos (by simp [h3])]

/-- With any explicitly typed entry present, the loader keeps the parsed
roles unchanged. -/
theorem load_keypoint_types_explicit (data : List KpEntry)
    (h3 : has_any_typed data = true) :
    load_keypoint_types data = parse_keypoint_types data := by
  rw [load_keypoint_types]
  by_cases hc : 0 < (parse_keypoint_types data).length ∧
      ((parse_keypoint_types data).all (fun t => t = "normal")) = true
  · rw [if_pos hc, if_neg (by simp [h3])]
  · rw [if_neg hc]

/-- Claim C7: when no keypoint entry carries an explicit role,
`load_annotation` assigns roles positionally (indices 0-11 corner,
12-17 perp, later ones normal); and when every entry carries an explicit
role — even when every explicit role is "normal" — positional inference
is never applied and the explicit roles are kept unchanged, for any
point count and order. -/
theorem claim_C7_legacy_role_inference (data : List KpEntry) :
    ((∀ k ∈ data, k.role = none) →
      ∀ i, i < data.length →
        (load_keypoint_types data).get? i =
          some (if i < 12 then "corner" else if i < 18 then "perp" else "normal")) ∧
    ((∀ k ∈ data, (k.role).isSome = true) →
      ∀ i e, data.get? i = some e →
        (load_keypoint_types data).get? i = e.role) := by
  constructor
  · intro hnone i hi
    have hlen : (parse_keypoint_types data).length = data.length := by
      simp [parse_keypoint_types]
    have hall : ∀ t ∈ parse_keypoint_types data, t = "normal" := by
      intro t ht
      simp only [parse_keypoint_types, List.mem_map] at ht
      obtain ⟨k, hk, rfl⟩ := ht
      rw [hnone k hk]
      rfl
    have htyped : has_any_typed data = false := by
      simp only [has_any_typed, List.any_eq_false]
      intro k hk
      rw [hnone k hk]
      simp
    have hpos : 0 < (parse_keypoint_types data).length := by omega
    rw [load_keypoint_types_inferred data hpos hall htyped]
    rw [legacy_positional_types]
    rw [List.get?_map, List.get?_range (by omega : i < (parse_keypoint_types data).length)]
    simp only [Option.map_some']
    congr 1
    by_cases h12 : i < 12
    · simp [h12]
    · by_cases h18 : i < 18
      · simp [h12, h18]
      · have hgd : (parse_keypoint_types data)[i]?.getD "normal" = "normal" := by
          rw [List.getElem?_eq_getElem (by omega)]
          exact hall _ (List.getElem_mem _)
        simp [h12, h18, hgd]
  · intro hsome i e he
    have hmem : e ∈ data := List.get?_mem he
    have htyped : has_any_typed data = true := by
      simp only [has_any_typed, List.any_eq_true]
      exact ⟨e, hmem, hsome e hmem⟩
    rw [load_keypoint_types_explicit data htyped]
    rw [parse_keypoint_types, List.get?_map, he]
    obtain ⟨r, hr⟩ := Option.isSome_iff_exists.mp (hsome e hmem)
    simp [hr]

/-- Witness for C7 at a concrete input: four explicitly-"normal" entries
keep their roles (no positional inference), and a role-free pair gets
the positional corner roles. -/
theorem claim_C7_witness :
    (load_keypoint_types
        [⟨0, 0, some "normal"⟩, ⟨1, 1, some "normal"⟩,
         ⟨2, 2, some "normal"⟩, ⟨3, 3, some "normal"⟩]).get? 2 =
      some "normal" ∧
    (load_keypoint_types [⟨5, 5, none⟩, ⟨6, 6, none⟩]).get? 1 =
      some "corner" := by
  constructor
  · have h := (claim_C7_legacy_role_inference
      [⟨0, 0, some "normal"⟩, ⟨1, 1, some "normal"⟩,
       ⟨2, 2, some "normal"⟩, ⟨3, 3, some "normal"⟩]).2
      (by decide) 2 ⟨2, 2, some "normal"⟩ (by decide)
    simpa using h
  · have h := (claim_C7_legacy_role_inference
      [⟨5, 5, none⟩, ⟨6, 6, none⟩]).1 (by decide) 1 (by decide)
    simpa using h

/-- Counterexample to claim C4 as stated: with an empty
`target_distances` mapping (so pair 1 has no configured target) and one
configured measurement spec, a frame in which pair 1 was never measured
emits a snapshot whose entry for pair 1 has `qc_passed = false`, not
pass. -/
theorem claim_C4_counterexample :
    dict_find ([] : List (Nat × ℚ)) 1 = none ∧
    ((save_live_measurements [] [] [{}] 1).snapshot.map
      (fun e => (e.id, e.qc))) = [(1, false)] := by
  constructor
  · rfl
  · rfl

/-- Claim C4, amended: whenever `check_qc` evaluates a pair whose index
is absent from the current side's `target_distances` mapping, it returns
pass and records "PASS" — but snapshot entries of pairs that were never
measured (so `check_qc` never ran for them) carry `qc_passed = false`
even when no target is configured. -/
theorem claim_C4_qc_auto_pass (targets : List (Nat × ℚ)) (tol : ℚ)
    (qcResults : Nat → Option String) (pairNum : Nat) (measured : ℚ)
    (h : dict_find targets pairNum = none) :
    (check_qc targets tol qcResults pairNum measured).1 = true ∧
    (check_qc targets tol qcResults pairNum measured).2 pairNum =
      some "PASS" := by
  rw [check_qc, h]
  exact ⟨rfl, by simp⟩

/-- Witness for the amended C4: pair 3 is absent from a concrete
one-entry target mapping, and `check_qc` passes it. -/
theorem claim_C4_witness :
    (check_qc [(1, (10 : ℚ))] 2 (fun _ => none) 3 999).1 = true ∧
    (check_qc [(1, (10 : ℚ))] 2 (fun _ => none) 3 999).2 3 = some "PASS" :=
  claim_C4_qc_auto_pass [(1, (10 : ℚ))] 2 (fun _ => none) 3 999 (by decide)

/-- Claim C10: every `save_live_measurements` call whose incremented
call counter is congruent to 1 modulo 30 (including the very first call)
returns `False` because the diagnostic block references the undefined
name `live_file_abs` — even though the snapshot file has already been
atomically written before that point, so the `False` return does not
indicate a missing snapshot. -/
theorem claim_C10_spurious_false_return (ms last : List Meas)
    (specs : List Spec) (count : Nat) (h : (count + 1) % 30 = 1) :
    (save_live_measurements ms last specs count).ret = false ∧
    (save_live_measurements ms last specs count).fileWritten = true ∧
    (save_live_measurements ms last specs count).snapshot =
      build_snapshot ms last specs := by
  rw [save_live_measurements]
  simp [h]

/-- Witness for C10: the very first call of a session (counter 0)
returns `False` with the file written. -/
theorem claim_C10_witness :
    (save_live_measurements [⟨1, some 5, 50, true, false⟩] [] [{}] 0).ret =
      false ∧
    (save_live_measurements [⟨1, some 5, 50, true, false⟩] [] [{}] 0).fileWritten =
      true ∧
    (save_live_measurements [⟨1, some 5, 50, true, false⟩] [] [{}] 0).snapshot =
      build_snapshot [⟨1, some 5, 50, true, false⟩] [] [{}] :=
  claim_C10_spurious_false_return [⟨1, some 5, 50, true, false⟩] [] [{}] 0
    (by decide)

/-- A pair number that appears neither among the current frame's
measurements nor among the cached measurements with positive real
distance is absent from `measured_by_pair`. -/
theorem measured_by_pair_eq_none (ms last : List Meas) (pn : Nat)
    (hms : ∀ m ∈ ms, m.pairNum ≠ pn)
    (hlast : ∀ m ∈ last, m.pairNum = pn → ∀ r, m.real = some r → ¬(0 < r)) :
    measured_by_pair ms last pn = none := by
  rw [measured_by_pair]
  have h1 : (ms.reverse).find? (fun m => m.pairNum == pn) = none := by
    rw [List.find?_eq_none]
    intro m hm
    simp only [beq_iff_eq]
    exact hms m (List.mem_reverse.mp hm)
  have h2 : last.find? (fun m =>
      m.pairNum == pn && m.real.isSome && decide (0 < m.real.getD 0)) = none := by
    rw [List.find?_eq_none]
    intro m hm
    simp only [Bool.and_eq_true, beq_iff_eq, decide_eq_true_eq, not_and]
    intro hpn
    obtain ⟨heq, hsome⟩ := hpn
    intro hpos
    obtain ⟨r, hr⟩ := Option.isSome_iff_exists.mp hsome
    have hno := hlast m hm heq r hr
    rw [hr] at hpos
    simp only [Option.getD_some] at hpos
    exact hno hpos
  rw [h1, h2]

/-- Claim C3: a measurement pair that appears neither in the current
frame's measurements nor in the cached `last_measurements` with positive
real distance has `actual_cm = null` (never `0.0`) in every snapshot
emitted by `save_live_measurements`. -/
theorem claim_C3_never_measured_null (ms last : List Meas)
    (specs : List Spec) (count : Nat) (pn : Nat) (e : Entry)
    (hms : ∀ m ∈ ms, m.pairNum ≠ pn)
    (hlast : ∀ m ∈ last, m.pairNum = pn → ∀ r, m.real = some r → ¬(0 < r))
    (he : e ∈ (save_live_measurements ms last specs count).snapshot)
    (hid : e.id = pn) :
    e.actualCm = none := by
  have hsnap : (save_live_measurements ms last specs count).snapshot =
      build_snapshot ms last specs := by
    rw [save_live_measurements]
    by_cases h : (count + 1) % 30 = 1 <;> simp [h]
  rw [hsnap, build_snapshot] at he
  simp only [List.mem_map, List.mem_range] at he
  obtain ⟨k, _, rfl⟩ := he
  have hk : k + 1 = pn := hid
  rw [mk_entry]
  simp [hk, measured_by_pair_eq_none ms last pn hms hlast]

/-- Witness for C3: pair 1 is measured in neither list (its only cached
entry has real distance 0), and its snapshot entry reports
`actual_cm = none` while a genuinely measured pair 2 reports a value. -/
theorem claim_C3_witness :
    (mk_entry [⟨2, some 5, 50, true, false⟩] [⟨1, some 0, 10, false, false⟩]
        [{}, {}] 1).actualCm = none ∧
    mk_entry [⟨2, some 5, 50, true, false⟩] [⟨1, some 0, 10, false, false⟩]
        [{}, {}] 1 ∈
      (save_live_measurements [⟨2, some 5, 50, true, false⟩]
        [⟨1, some 0, 10, false, false⟩] [{}, {}] 4).snapshot := by
  have hsnap : (save_live_measurements [⟨2, some 5, 50, true, false⟩]
      [⟨1, some 0, 10, false, false⟩] [{}, {}] 4).snapshot =
      mk_entry [⟨2, some 5, 50, true, false⟩] [⟨1, some 0, 10, false, false⟩]
        [{}, {}] 1 ::
      [mk_entry [⟨2, some 5, 50, true, false⟩] [⟨1, some 0, 10, false, false⟩]
        [{}, {}] 2] := rfl
  have hmem : mk_entry [⟨2, some 5, 50, true, false⟩]
      [⟨1, some 0, 10, false, false⟩] [{}, {}] 1 ∈
      (save_live_measurements [⟨2, some 5, 50, true, false⟩]
        [⟨1, some 0, 10, false, false⟩] [{}, {}] 4).snapshot := by
    rw [hsnap]
    exact List.mem_cons_self _ _
  refine ⟨?_, hmem⟩
  exact claim_C3_never_measured_null [⟨2, some 5, 50, true, false⟩]
    [⟨1, some 0, 10, false, false⟩] [{}, {}] 4 1 _
    (by decide)
    (by
      intro m hm hpn r hr
      simp only [List.mem_singleton] at hm
      subst hm
      simp only [Option.some.injEq] at hr
      subst hr
      norm_num)
    hmem rfl

/-! ### Toolkit lemmas about the fusion loop, the static override and the
stabilizer. -/

/-- Unfolding `dict_find` over a cons cell. -/
theorem dict_find_cons {β : Type} (e : Nat × β) (rest : List (Nat × β))
    (k : Nat) :
    dict_find (e :: rest) k =
      if e.1 = k then some e.2 else dict_find rest k := by
  by_cases h : e.1 = k
  · rw [if_pos h, dict_find, List.find?_cons_of_pos _ (by simpa using h)]
    rfl
  · rw [if_neg h, dict_find, List.find?_cons_of_neg _ (by simpa using h)]
    rfl

/-- With `matches` bound, `fuse_normal` never raises. -/
theorem fuse_normal_ok (k : Nat) (feat temp : Pt) :
    ∃ p, fuse_normal (some k) feat temp = Except.ok p := by
  rw [fuse_normal]
  dsimp only
  repeat' split
  all_goals exact ⟨_, rfl⟩

/-- With `matches` bound, the fusion loop never raises and returns one
point per visited index. -/
theorem fuse_go_ok (k : Nat) (types : List String) (lockInit : Bool)
    (lockMap : List (Nat × Pt)) (featPts tempPts cornerPts : List Pt) :
    ∀ (idxs : List Nat) (counter : Nat),
    ∃ l, fuse_go (some k) types lockInit lockMap featPts tempPts cornerPts
        idxs counter = Except.ok l ∧ l.length = idxs.length := by
  intro idxs
  induction idxs with
  | nil => exact fun _ => ⟨[], rfl, rfl⟩
  | cons i rest ih =>
    intro counter
    rw [fuse_go]
    by_cases h1 : types.getD i "normal" = "corner" ∧ counter < cornerPts.length
    · obtain ⟨l, hl, hlen⟩ := ih (counter + 1)
      rw [if_pos h1, hl]
      exact ⟨_, rfl, by simpa using hlen⟩
    · rw [if_neg h1]
      by_cases h2 : types.getD i "normal" = "perp"
      · obtain ⟨l, hl, hlen⟩ := ih counter
        rw [if_pos h2, hl]
        exact ⟨_, rfl, by simpa using hlen⟩
      · rw [if_neg h2]
        obtain ⟨p, hp⟩ := fuse_normal_ok k (featPts.getD i (-1, -1))
          (tempPts.getD i (-1, -1))
        obtain ⟨l, hl, hlen⟩ := ih counter
        rw [hp, hl]
        exact ⟨_, rfl, by simpa using hlen⟩

/-- In the fusion loop, a visited index whose role is "perp" and which
the initialized static map contains yields exactly its locked
coordinate, whatever the candidate lists hold. -/
theorem fuse_go_perp_locked (k : Nat) (types : List String)
    (lockMap : List (Nat × Pt)) (featPts tempPts cornerPts : List Pt)
    (i : Nat) (p : Pt)
    (hty : types.getD i "normal" = "perp")
    (hlook : dict_find lockMap i = some p) :
    ∀ (idxs : List Nat) (counter j : Nat), idxs.get? j = some i →
    ∃ l, fuse_go (some k) types true lockMap featPts tempPts cornerPts
        idxs counter = Except.ok l ∧ l.get? j = some p := by
  intro idxs
  induction idxs with
  | nil => intro counter j hj; simp at hj
  | cons a rest ih =>
    intro counter j hj
    match j with
    | 0 =>
      have ha : a = i := by simpa using hj
      subst ha
      rw [fuse_go]
      rw [if_neg (by rw [hty]; simp)]
      rw [if_pos hty]
      obtain ⟨l, hl, _⟩ := fuse_go_ok k types true lockMap featPts tempPts
        cornerPts rest counter
      rw [hl]
      refine ⟨_, rfl, ?_⟩
      have hsome : (dict_find lockMap a).isSome = true := by rw [hlook]; rfl
      rw [if_pos ⟨rfl, hsome⟩, hlook]
      rfl
    | Nat.succ j' =>
      simp only [List.get?_cons_succ] at hj
      rw [fuse_go]
      by_cases h1 : types.getD a "normal" = "corner" ∧ counter < cornerPts.length
      · obtain ⟨l, hl, hval⟩ := ih (counter + 1) j' hj
        rw [if_pos h1, hl]
        exact ⟨_, rfl, by simpa using hval⟩
      · rw [if_neg h1]
        by_cases h2 : types.getD a "normal" = "perp"
        · obtain ⟨l, hl, hval⟩ := ih counter j' hj
          rw [if_pos h2, hl]
          exact ⟨_, rfl, by simpa using hval⟩
        · rw [if_neg h2]
          obtain ⟨p', hp'⟩ := fuse_normal_ok k (featPts.getD a (-1, -1))
            (tempPts.getD a (-1, -1))
          obtain ⟨l, hl, hval⟩ := ih counter j' hj
          rw [hp', hl]
          exact ⟨_, rfl, by simpa using hval⟩

/-- The static override preserves the list length. -/
theorem apply_static_override_length (lockMap : List (Nat × Pt)) :
    ∀ pts : List Pt, (apply_static_override lockMap pts).length = pts.length := by
  induction lockMap with
  | nil => intro pts; rfl
  | cons e rest ih =>
    intro pts
    rw [apply_static_override, List.foldl_cons]
    have := ih (pts.set e.1 e.2)
    rw [apply_static_override] at this
    rw [this, List.length_set]

/-- The static override does not touch an index that is not a key. -/
theorem apply_static_override_get_of_no_key (i : Nat) :
    ∀ (lockMap : List (Nat × Pt)) (pts : List Pt),
    (∀ e ∈ lockMap, e.1 ≠ i) →
    (apply_static_override lockMap pts).get? i = pts.get? i := by
  intro lockMap
  induction lockMap with
  | nil => intro pts _; rfl
  | cons e rest ih =>
    intro pts hk
    rw [apply_static_override, List.foldl_cons]
    have step := ih (pts.set e.1 e.2) (fun x hx => hk x (List.mem_cons_of_mem e hx))
    rw [apply_static_override] at step
    rw [step]
    rw [List.get?_eq_getElem?, List.get?_eq_getElem?]
    exact List.getElem?_set_ne (hk e (List.mem_cons_self e rest))

/-- The static override writes the locked coordinate at a locked index
(keys assumed distinct, as in a Python dict). -/
theorem apply_static_override_get_of_key (i : Nat) (p : Pt) :
    ∀ (lockMap : List (Nat × Pt)) (pts : List Pt),
    (lockMap.map Prod.fst).Nodup →
    dict_find lockMap i = some p → i < pts.length →
    (apply_static_override lockMap pts).get? i = some p := by
  intro lockMap
  induction lockMap with
  | nil => intro pts _ hfind; simp [dict_find] at hfind
  | cons e rest ih =>
    intro pts hnodup hfind hlt
    rw [apply_static_override, List.foldl_cons]
    rw [List.map_cons, List.nodup_cons] at hnodup
    by_cases hkey : e.1 = i
    · have hval : e.2 = p := by
        rw [dict_find_cons, if_pos hkey] at hfind
        simpa using hfind
      have hnokey : ∀ x ∈ rest, x.1 ≠ i := by
        intro x hx hxi
        have hmem : x.1 ∈ List.map Prod.fst rest :=
          List.mem_map_of_mem Prod.fst hx
        rw [hxi, ← hkey] at hmem
        exact hnodup.1 hmem
      have step := apply_static_override_get_of_no_key i rest
        (pts.set e.1 e.2) hnokey
      rw [apply_static_override] at step
      rw [step, hkey, hval, List.get?_eq_getElem?]
      exact List.getElem?_set_eq hlt
    · have hfind' : dict_find rest i = some p := by
        rw [dict_find_cons, if_neg hkey] at hfind
        exact hfind
      have step := ih (pts.set e.1 e.2) hnodup.2 hfind'
        (by rw [List.length_set]; exact hlt)
      rw [apply_static_override] at step
      exact step

/-- In the main branch of the stabilizer, the output at index `i` is the
per-point result `stab_one` applied to the (possibly lock-overridden)
input. -/
theorem stabilize_get (s : TrackState) (newPts : List Pt) (i : Nat)
    (hne : s.lastValid.isEmpty = false)
    (hlen : s.lastValid.length = newPts.length)
    (hi : i < newPts.length) :
    (stabilize_keypoints s newPts).1.get? i =
      some (stab_one s
        (if s.lockInit then apply_static_override s.lockMap newPts
         else newPts) i).1 := by
  rw [stabilize_keypoints]
  rw [if_neg (by simp [hne, hlen])]
  simp only []
  have hplen : (if s.lockInit then apply_static_override s.lockMap newPts
      else newPts).length = newPts.length := by
    by_cases h : s.lockInit
    · simp [h, apply_static_override_length]
    · simp [h]
  rw [List.get?_eq_getElem?, List.getElem?_map, List.getElem?_map]
  rw [List.getElem?_range (by rw [hplen]; exact hi)]
  rfl

/-- Claim C9: when the combined descriptors of the reference or current
frame are missing/empty, `transfer_keypoints_robust` reaches the
unconditional `len(matches)` at line 1366 with `matches` unbound; the
raised exception is caught by the outer handler, which returns the raw
`template_match_keypoints` result at scale 1.0 with the tracking state
untouched — no stabilization, no `last_valid_keypoints` update, no
static-lock override. -/
theorem claim_C9_unbound_matches_template_fallback (env : Env)
    (cfg : Config) (s : TrackState)
    (hgray : env.refGrayPresent = true)
    (hkp : cfg.keypoints.isEmpty = false)
    (hdesc : env.refDescCount = 0 ∨ env.currDescCount = 0) :
    transfer_keypoints_robust env cfg s = (env.templateMatch 1, s) := by
  have hmo : (if env.refDescCount ≠ 0 ∧ env.currDescCount ≠ 0 then
      some (match_features_fast env.knnPairs) else none) = none := by
    rw [if_neg]
    rcases hdesc with h | h <;> simp [h]
  have herr : transfer_body env cfg s = Except.error () := by
    rw [transfer_body]
    simp only [hmo]
    repeat' split
    all_goals rfl
  rw [transfer_keypoints_robust, if_neg (by simp [hgray, hkp]), herr]

/-- Witness for C9: a frame with zero descriptors, a locked
perpendicular index 0 at `(9, 9)`, and a template oracle answering
`(5, 5)`: the function reports `(5, 5)` at the locked index and leaves
the state alone. -/
theorem claim_C9_witness :
    transfer_keypoints_robust
      ⟨true, 0, 0, [], [], [], none, 1, fun _ => [((5 : ℚ), (5 : ℚ))],
        fun _ _ => []⟩
      ⟨[((0 : ℚ), (0 : ℚ))], ["perp"], "homography"⟩
      ⟨[], true, [(0, ((9 : ℚ), (9 : ℚ)))], 0, false⟩ =
      ([((5 : ℚ), (5 : ℚ))],
        ⟨[], true, [(0, ((9 : ℚ), (9 : ℚ)))], 0, false⟩) ∧
    dict_find [(0, ((9 : ℚ), (9 : ℚ)))] 0 = some ((9 : ℚ), (9 : ℚ)) ∧
    ((5 : ℚ), (5 : ℚ)) ≠ ((9 : ℚ), (9 : ℚ)) := by
  refine ⟨?_, rfl, by decide⟩
  exact claim_C9_unbound_matches_template_fallback _ _ _ rfl rfl (Or.inl rfl)

/-- Claim C5: with fewer than `min_matches` (15) good matches, the
feature-based transfer contributes `(-1, -1)` for every annotated
keypoint, and the pipeline still runs the template-matching fallback —
at scale 1.0 — and fuses/stabilizes with it as usual. -/
theorem claim_C5_min_match_gate (env : Env) (cfg : Config) (s : TrackState)
    (hgray : env.refGrayPresent = true)
    (hkp : cfg.keypoints.isEmpty = false)
    (hrd : env.refDescCount ≠ 0) (hcd : env.currDescCount ≠ 0)
    (hlt : (match_features_fast env.knnPairs).length < min_matches) :
    compute_feature_points env cfg (match_features_fast env.knnPairs) =
      List.replicate cfg.keypoints.length ((-1 : ℚ), (-1 : ℚ)) ∧
    ∃ fused,
      fuse_points (some (match_features_fast env.knnPairs).length)
          cfg.keypoints.length cfg.types s.lockInit s.lockMap
          (List.replicate cfg.keypoints.length ((-1 : ℚ), (-1 : ℚ)))
          (env.templateMatch 1)
          (env.cornerDetect 1 (corner_indices cfg.types)) =
        Except.ok fused ∧
      transfer_keypoints_robust env cfg s = after_fusion cfg s fused := by
  have hfeat : compute_feature_points env cfg (match_features_fast env.knnPairs) =
      List.replicate cfg.keypoints.length ((-1 : ℚ), (-1 : ℚ)) := by
    rw [compute_feature_points, if_neg (by omega)]
  have hscale : scale_factor_of env (match_features_fast env.knnPairs) = 1 := by
    rw [scale_factor_of, if_neg (by omega)]
  obtain ⟨fused, hfg, _⟩ := fuse_go_ok (match_features_fast env.knnPairs).length
    cfg.types s.lockInit s.lockMap
    (List.replicate cfg.keypoints.length ((-1 : ℚ), (-1 : ℚ)))
    (env.templateMatch 1) (env.cornerDetect 1 (corner_indices cfg.types))
    (List.range cfg.keypoints.length) 0
  have hfp : fuse_points (some (match_features_fast env.knnPairs).length)
      cfg.keypoints.length cfg.types s.lockInit s.lockMap
      (List.replicate cfg.keypoints.length ((-1 : ℚ), (-1 : ℚ)))
      (env.templateMatch 1) (env.cornerDetect 1 (corner_indices cfg.types)) =
      Except.ok fused := hfg
  have hmo : (if env.refDescCount ≠ 0 ∧ env.currDescCount ≠ 0 then
      some (match_features_fast env.knnPairs) else none) =
      some (match_features_fast env.knnPairs) := if_pos ⟨hrd, hcd⟩
  have hbody : transfer_body env cfg s =
      Except.ok (after_fusion cfg s fused) := by
    rw [transfer_body]
    simp only [hmo, Option.map_some', hfeat, hscale]
    rw [hfp]
  refine ⟨hfeat, fused, hfp, ?_⟩
  rw [transfer_keypoints_robust, if_neg (by simp [hgray, hkp]), hbody]

/-- Witness for C5 at a concrete frame with zero good matches: the
feature stage contributes `(-1, -1)`, the template oracle is consulted
at scale 1.0, and its answer `(3, 4)` becomes the output point. -/
theorem claim_C5_witness :
    (compute_feature_points
        ⟨true, 2, 2, [], [], [], none, 1, fun _ => [((3 : ℚ), (4 : ℚ))],
          fun _ _ => []⟩
        ⟨[((0 : ℚ), (0 : ℚ))], ["normal"], "homography"⟩
        (match_features_fast []) =
      List.replicate 1 ((-1 : ℚ), (-1 : ℚ))) ∧
    (transfer_keypoints_robust
        ⟨true, 2, 2, [], [], [], none, 1, fun _ => [((3 : ℚ), (4 : ℚ))],
          fun _ _ => []⟩
        ⟨[((0 : ℚ), (0 : ℚ))], ["normal"], "homography"⟩
        ⟨[], false, [], 0, false⟩).1 = [((3 : ℚ), (4 : ℚ))] := by
  obtain ⟨h1, fused, hfp, hrun⟩ := claim_C5_min_match_gate
    ⟨true, 2, 2, [], [], [], none, 1, fun _ => [((3 : ℚ), (4 : ℚ))],
      fun _ _ => []⟩
    ⟨[((0 : ℚ), (0 : ℚ))], ["normal"], "homography"⟩
    ⟨[], false, [], 0, false⟩
    rfl rfl (by decide) (by decide) (by decide)
  refine ⟨h1, ?_⟩
  rw [hrun]
  have hok : fuse_points (some (match_features_fast []).length) 1 ["normal"]
      false [] (List.replicate 1 ((-1 : ℚ), (-1 : ℚ)))
      [((3 : ℚ), (4 : ℚ))] [] = Except.ok [((3 : ℚ), (4 : ℚ))] := rfl
  have hchain := hfp.symm.trans hok
  have hfused : fused = [((3 : ℚ), (4 : ℚ))] := Except.ok.inj hchain
  rw [hfused]
  rfl

/-- The MLS weight is always strictly positive. -/
theorem mls_weight_pos (refPt src : Pt) : 0 < mls_weight refPt src := by
  rw [mls_weight]
  by_cases h : (refPt.1 - src.1) ^ 2 + (refPt.2 - src.2) ^ 2 <
      1 / 1000000000000
  · simp only [if_pos h]
    norm_num
  · simp only [if_neg h]
    push_neg at h
    have hpos : (0 : ℚ) < (refPt.1 - src.1) ^ 2 + (refPt.2 - src.2) ^ 2 :=
      lt_of_lt_of_le (by norm_num) h
    exact one_div_pos.mpr hpos

/-- With at least one match and nonnegative current-frame keypoint
coordinates, every MLS point is a weighted average with nonnegative
coordinates — in particular it is never the `(-1, -1)` marker. -/
theorem mls_point_nonneg (env : Env) (ms : List DMatch) (refPt : Pt)
    (hms : ms ≠ [])
    (hnn : ∀ p ∈ env.currKp, 0 ≤ p.1 ∧ 0 ≤ p.2) :
    0 ≤ (mls_point env ms refPt).1 ∧ 0 ≤ (mls_point env ms refPt).2 ∧
      mls_point env ms refPt ≠ ((-1 : ℚ), (-1 : ℚ)) := by
  have hdst : ∀ j : Nat, 0 ≤ (env.currKp.getD j (0, 0)).1 ∧
      0 ≤ (env.currKp.getD j (0, 0)).2 := by
    intro j
    rcases Nat.lt_or_ge j env.currKp.length with hj | hj
    · have hmem : env.currKp.getD j (0, 0) ∈ env.currKp := by
        rw [List.getD_eq_getElem?_getD, List.getElem?_eq_getElem hj]
        exact List.getElem_mem _
      exact hnn _ hmem
    · rw [List.getD_eq_getElem?_getD, List.getElem?_eq_none (by omega)]
      exact ⟨le_refl 0, le_refl 0⟩
  have htot : 0 < (ms.map (fun m =>
      mls_weight refPt (env.refKp.getD m.queryIdx (0, 0)))).sum := by
    apply List.sum_pos
    · intro x hx
      simp only [List.mem_map] at hx
      obtain ⟨m, _, rfl⟩ := hx
      exact mls_weight_pos _ _
    · simp [hms]
  have hwx : 0 ≤ (ms.map (fun m =>
      mls_weight refPt (env.refKp.getD m.queryIdx (0, 0)) *
        (env.currKp.getD m.trainIdx (0, 0)).1)).sum := by
    apply List.sum_nonneg
    intro x hx
    simp only [List.mem_map] at hx
    obtain ⟨m, _, rfl⟩ := hx
    exact mul_nonneg (le_of_lt (mls_weight_pos _ _)) (hdst m.trainIdx).1
  have hwy : 0 ≤ (ms.map (fun m =>
      mls_weight refPt (env.refKp.getD m.queryIdx (0, 0)) *
        (env.currKp.getD m.trainIdx (0, 0)).2)).sum := by
    apply List.sum_nonneg
    intro x hx
    simp only [List.mem_map] at hx
    obtain ⟨m, _, rfl⟩ := hx
    exact mul_nonneg (le_of_lt (mls_weight_pos _ _)) (hdst m.trainIdx).2
  rw [mls_point]
  simp only [if_pos htot]
  refine ⟨div_nonneg hwx (le_of_lt htot), div_nonneg hwy (le_of_lt htot), ?_⟩
  intro heq
  have hx := congrArg Prod.fst heq
  simp only [] at hx
  have := div_nonneg hwx (le_of_lt htot)
  rw [hx] at this
  norm_num at this

/-- Claim C6: when homography is attempted (at least 20 matches, method
allows it) and rejected (`findHomography` returned nothing, or its
determinant falls outside `(0.1, 10.0)`), the feature stage falls back
to MLS, which yields one locally-weighted coordinate per annotated
keypoint; with real (nonnegative) pixel coordinates none of them is the
`(-1, -1)` marker. -/
theorem claim_C6_mls_after_homography_reject (env : Env) (cfg : Config)
    (ms : List DMatch)
    (h20 : 20 ≤ ms.length)
    (hmethod : cfg.method = "homography" ∨ cfg.method = "auto")
    (hrej : ∀ H, env.findHom = some H →
      ¬(1/10 < |det3 H| ∧ |det3 H| < 10)) :
    compute_feature_points env cfg ms = transfer_with_mls env cfg ms ∧
    transfer_with_mls env cfg ms = cfg.keypoints.map (mls_point env ms) ∧
    ((∀ p ∈ env.currKp, 0 ≤ p.1 ∧ 0 ≤ p.2) →
      ∀ p ∈ transfer_with_mls env cfg ms, p ≠ ((-1 : ℚ), (-1 : ℚ))) := by
  have hhom : transfer_with_homography env cfg ms = [] := by
    rw [transfer_with_homography, if_neg (by simp only [min_matches]; omega)]
    cases hH : env.findHom with
    | none => rfl
    | some H =>
      show (if 1/10 < |det3 H| ∧ |det3 H| < 10 then
        cfg.keypoints.map (persp H) else []) = []
      rw [if_neg (hrej H hH)]
  have hmls : transfer_with_mls env cfg ms =
      cfg.keypoints.map (mls_point env ms) := by
    rw [transfer_with_mls, if_neg (by omega)]
  have hcfp : compute_feature_points env cfg ms =
      transfer_with_mls env cfg ms := by
    rw [compute_feature_points,
      if_pos (by simp only [min_matches]; omega : min_matches ≤ ms.length),
      if_pos ⟨h20, hmethod⟩]
    simp only [hhom, List.isEmpty_nil, if_pos]
  refine ⟨hcfp, hmls, ?_⟩
  intro hnn p hp
  rw [hmls] at hp
  simp only [List.mem_map] at hp
  obtain ⟨refPt, _, rfl⟩ := hp
  exact (mls_point_nonneg env ms refPt
    (by intro h; rw [h] at h20; simp at h20) hnn).2.2

/-- Witness for C6: 20 matches with no homography returned — the
feature stage equals the MLS map, and its single point avoids
`(-1, -1)`. -/
theorem claim_C6_witness :
    compute_feature_points
        ⟨true, 1, 1, [((0 : ℚ), (0 : ℚ))], [((3 : ℚ), (4 : ℚ))], [], none,
          1, fun _ => [], fun _ _ => []⟩
        ⟨[((1 : ℚ), (2 : ℚ))], ["normal"], "homography"⟩
        (List.replicate 20 ⟨0, 0, 0⟩) =
      transfer_with_mls
        ⟨true, 1, 1, [((0 : ℚ), (0 : ℚ))], [((3 : ℚ), (4 : ℚ))], [], none,
          1, fun _ => [], fun _ _ => []⟩
        ⟨[((1 : ℚ), (2 : ℚ))], ["normal"], "homography"⟩
        (List.replicate 20 ⟨0, 0, 0⟩) ∧
    ∀ p ∈ transfer_with_mls
        ⟨true, 1, 1, [((0 : ℚ), (0 : ℚ))], [((3 : ℚ), (4 : ℚ))], [], none,
          1, fun _ => [], fun _ _ => []⟩
        ⟨[((1 : ℚ), (2 : ℚ))], ["normal"], "homography"⟩
        (List.replicate 20 ⟨0, 0, 0⟩),
      p ≠ ((-1 : ℚ), (-1 : ℚ)) := by
  obtain ⟨h1, _, h3⟩ := claim_C6_mls_after_homography_reject
    ⟨true, 1, 1, [((0 : ℚ), (0 : ℚ))], [((3 : ℚ), (4 : ℚ))], [], none, 1,
      fun _ => [], fun _ _ => []⟩
    ⟨[((1 : ℚ), (2 : ℚ))], ["normal"], "homography"⟩
    (List.replicate 20 ⟨0, 0, 0⟩)
    (by decide) (Or.inl rfl)
    (by intro H h; cases h)
  exact ⟨h1, h3 (by
    intro p hp
    simp only [List.mem_singleton] at hp
    subst hp
    exact ⟨by norm_num, by norm_num⟩)⟩

/-- At a locked index with a valid locked coordinate, the per-point
stabilizer passes the locked value through. -/
theorem stab_one_locked (s : TrackState) (pts : List Pt) (i : Nat) (p : Pt)
    (hinit : s.lockInit = true)
    (hlook : dict_find s.lockMap i = some p)
    (hget : pts.get? i = some p)
    (hp1 : p.1 ≠ -1) (hp2 : p.2 ≠ -1) :
    (stab_one s pts i).1 = p := by
  have hgetD : pts.getD i (-1, -1) = p := by
    rw [List.getD_eq_getElem?_getD, ← List.get?_eq_getElem?, hget]
    rfl
  rw [stab_one]
  simp only [hgetD]
  rw [if_neg (by push_neg; exact ⟨hp1, hp2⟩)]
  rw [if_pos ⟨hinit, by rw [hlook]; rfl⟩]

/-- The stabilizer emits the locked coordinate at a locked index,
whatever the incoming candidate list holds there. -/
theorem stabilize_keypoints_locked (s : TrackState) (fused : List Pt)
    (i : Nat) (p : Pt)
    (hinit : s.lockInit = true)
    (hnodup : (s.lockMap.map Prod.fst).Nodup)
    (hlook : dict_find s.lockMap i = some p)
    (hfused : fused.get? i = some p)
    (hp1 : p.1 ≠ -1) (hp2 : p.2 ≠ -1) :
    (stabilize_keypoints s fused).1.get? i = some p := by
  have hilen : i < fused.length := by
    by_contra hc
    rw [List.get?_eq_getElem?, List.getElem?_eq_none (by omega)] at hfused
    exact Option.noConfusion hfused
  by_cases hguard : s.lastValid.isEmpty = true ∨
      s.lastValid.length ≠ fused.length
  · rw [stabilize_keypoints, if_pos hguard]
    exact hfused
  · push_neg at hguard
    have hget := stabilize_get s fused i
      (by simpa using hguard.1) hguard.2 hilen
    rw [hget]
    have hpts : (if s.lockInit then apply_static_override s.lockMap fused
        else fused).get? i = some p := by
      rw [if_pos (by rw [hinit])]
      exact apply_static_override_get_of_key i p s.lockMap fused hnodup
        hlook hilen
    rw [stab_one_locked s _ i p hinit hlook hpts hp1 hp2]

/-- Claim C1: once the static-lock map holds a perpendicular-role
keypoint index, the fused and stabilized output of
`transfer_keypoints_robust` at that index equals the locked coordinate,
regardless of the transfer-engine, template, or corner candidates of the
frame (the whole `Env` is arbitrary here, subject only to the frame
taking the normal, non-raising path: reference image present, keypoints
annotated, both descriptor sets non-empty). -/
theorem claim_C1_static_lock_monotonic (env : Env) (cfg : Config)
    (s : TrackState) (i : Nat) (p : Pt)
    (hgray : env.refGrayPresent = true)
    (hkp : cfg.keypoints.isEmpty = false)
    (hrd : env.refDescCount ≠ 0) (hcd : env.currDescCount ≠ 0)
    (hinit : s.lockInit = true)
    (hnodup : (s.lockMap.map Prod.fst).Nodup)
    (hlook : dict_find s.lockMap i = some p)
    (hty : cfg.types.getD i "normal" = "perp")
    (hi : i < cfg.keypoints.length)
    (hp1 : p.1 ≠ -1) (hp2 : p.2 ≠ -1) :
    (transfer_keypoints_robust env cfg s).1.get? i = some p := by
  obtain ⟨fused, hfg, hval⟩ := fuse_go_perp_locked
    (match_features_fast env.knnPairs).length cfg.types s.lockMap
    (compute_feature_points env cfg (match_features_fast env.knnPairs))
    (env.templateMatch (scale_factor_of env (match_features_fast env.knnPairs)))
    (env.cornerDetect (scale_factor_of env (match_features_fast env.knnPairs))
      (corner_indices cfg.types))
    i p hty hlook (List.range cfg.keypoints.length) 0 i
    (List.get?_range hi)
  have hfp : fuse_points (some (match_features_fast env.knnPairs).length)
      cfg.keypoints.length cfg.types true s.lockMap
      (compute_feature_points env cfg (match_features_fast env.knnPairs))
      (env.templateMatch (scale_factor_of env (match_features_fast env.knnPairs)))
      (env.cornerDetect (scale_factor_of env (match_features_fast env.knnPairs))
        (corner_indices cfg.types)) = Except.ok fused := hfg
  have hmo : (if env.refDescCount ≠ 0 ∧ env.currDescCount ≠ 0 then
      some (match_features_fast env.knnPairs) else none) =
      some (match_features_fast env.knnPairs) := if_pos ⟨hrd, hcd⟩
  have hbody : transfer_body env cfg s =
      Except.ok (after_fusion cfg s fused) := by
    rw [transfer_body]
    simp only [hmo, Option.map_some', hinit]
    rw [hfp]
  rw [transfer_keypoints_robust, if_neg (by simp [hgray, hkp]), hbody]
  show (after_fusion cfg s fused).1.get? i = some p
  rw [after_fusion]
  exact stabilize_keypoints_locked s fused i p hinit hnodup hlook hval hp1 hp2

/-- Witness for C1: a two-point annotation whose second point is a
locked perpendicular index at `(7, 8)`; the frame's template oracle
reports garbage `(50, 50)` there, yet the output at index 1 is the
locked `(7, 8)`. -/
theorem claim_C1_witness :
    (transfer_keypoints_robust
        ⟨true, 3, 3, [], [], [], none, 1,
          fun _ => [((0 : ℚ), (0 : ℚ)), ((50 : ℚ), (50 : ℚ))],
          fun _ _ => []⟩
        ⟨[((0 : ℚ), (0 : ℚ)), ((1 : ℚ), (1 : ℚ))], ["normal", "perp"],
          "homography"⟩
        ⟨[], true, [(1, ((7 : ℚ), (8 : ℚ)))], 0, false⟩).1.get? 1 =
      some ((7 : ℚ), (8 : ℚ)) :=
  claim_C1_static_lock_monotonic _ _ _ 1 ((7 : ℚ), (8 : ℚ))
    rfl rfl (by decide) (by decide) rfl (by decide) rfl rfl (by decide)
    (by decide) (by decide)

/-- An index absent from `dict_find` has no binding in the list. -/
theorem dict_find_none_no_key {β : Type} (l : List (Nat × β)) (k : Nat)
    (h : dict_find l k = none) : ∀ e ∈ l, e.1 ≠ k := by
  intro e he
  rw [dict_find, Option.map_eq_none'] at h
  have := List.find?_eq_none.mp h e he
  simpa using this

/-- Per-point stabilizer: a valid, non-locked point below the jitter
threshold is accepted. -/
theorem stab_one_accept_near (s : TrackState) (pts : List Pt) (i : Nat)
    (hvn : ¬((pts.getD i (-1, -1)).1 = -1 ∨ (pts.getD i (-1, -1)).2 = -1))
    (hnl : ¬(s.lockInit = true ∧ (dict_find s.lockMap i).isSome = true))
    (hdist : ((pts.getD i (-1, -1)).1 - (s.lastValid.getD i (-1, -1)).1) ^ 2 +
      ((pts.getD i (-1, -1)).2 - (s.lastValid.getD i (-1, -1)).2) ^ 2 <
      stab_threshold_sq) :
    (stab_one s pts i).1 = pts.getD i (-1, -1) := by
  rw [stab_one, if_neg hvn, if_neg hnl, if_pos hdist]

/-- Per-point stabilizer: a valid, non-locked point above the jitter
threshold is still accepted whenever `check_coordinated_movement`
holds. -/
theorem stab_one_accept_coordinated (s : TrackState) (pts : List Pt)
    (i : Nat)
    (hvn : ¬((pts.getD i (-1, -1)).1 = -1 ∨ (pts.getD i (-1, -1)).2 = -1))
    (hnl : ¬(s.lockInit = true ∧ (dict_find s.lockMap i).isSome = true))
    (hfar : ¬(((pts.getD i (-1, -1)).1 - (s.lastValid.getD i (-1, -1)).1) ^ 2 +
      ((pts.getD i (-1, -1)).2 - (s.lastValid.getD i (-1, -1)).2) ^ 2 <
      stab_threshold_sq))
    (hcoord : check_coordinated_movement s.lastValid pts i) :
    (stab_one s pts i).1 = pts.getD i (-1, -1) := by
  rw [stab_one, if_neg hvn, if_neg hnl, if_neg hfar, if_pos hcoord]

/-- When every point other than the changed one is exactly where it was,
no movement vectors are collected. -/
theorem movement_directions_stationary (newPts lastValid : List Pt)
    (i : Nat)
    (hstat : ∀ j, j ≠ i → newPts.get? j = lastValid.get? j) :
    movement_directions newPts lastValid i = [] := by
  rw [movement_directions]
  rw [List.filterMap_eq_nil]
  intro j _
  by_cases hj : j = i
  · rw [if_neg]
    intro hc
    exact hc.2.2.1 hj
  · have hsame : newPts.getD j (-1, -1) = lastValid.getD j (-1, -1) := by
      rw [List.getD_eq_getElem?_getD, List.getD_eq_getElem?_getD,
        ← List.get?_eq_getElem?, ← List.get?_eq_getElem?, hstat j hj]
    rw [if_neg]
    intro hc
    have h25 := hc.2.2.2
    rw [hsame] at h25
    simp only [sub_self] at h25
    norm_num at h25


/-- Claim C2, amended: for a non-locked index with a valid previous
value and a valid new candidate, a displacement below the jitter
threshold (17 px; squared 289) passes the new value through; but a
single point whose displacement is at or above the threshold while
every other point is stationary is ALSO accepted — the previous value is
not held — because `check_coordinated_movement` returns True whenever
fewer than 2 other points are moving (or fewer than 3 previous points
exist), treating missing evidence as coordination.  The hold happens
only when at least two other moving points fail the cosine-consistency
test. -/
theorem claim_C2_stabilization_threshold (s : TrackState)
    (newPts : List Pt) (i : Nat)
    (hne : s.lastValid.isEmpty = false)
    (hlen : s.lastValid.length = newPts.length)
    (hi : i < newPts.length)
    (hnl : s.lockInit = true → dict_find s.lockMap i = none)
    (hvn1 : (newPts.getD i (-1, -1)).1 ≠ -1)
    (hvn2 : (newPts.getD i (-1, -1)).2 ≠ -1)
    (hvl : (s.lastValid.getD i (-1, -1)).1 ≠ -1) :
    (((newPts.getD i (-1, -1)).1 - (s.lastValid.getD i (-1, -1)).1) ^ 2 +
        ((newPts.getD i (-1, -1)).2 - (s.lastValid.getD i (-1, -1)).2) ^ 2 <
        stab_threshold_sq →
      (stabilize_keypoints s newPts).1.get? i =
        some (newPts.getD i (-1, -1))) ∧
    (s.lockInit = false →
      ¬(((newPts.getD i (-1, -1)).1 - (s.lastValid.getD i (-1, -1)).1) ^ 2 +
        ((newPts.getD i (-1, -1)).2 - (s.lastValid.getD i (-1, -1)).2) ^ 2 <
        stab_threshold_sq) →
      (∀ j, j ≠ i → newPts.get? j = s.lastValid.get? j) →
      (stabilize_keypoints s newPts).1.get? i =
        some (newPts.getD i (-1, -1))) := by
  have hget := stabilize_get s newPts i hne hlen hi
  have hpts : (if s.lockInit then apply_static_override s.lockMap newPts
      else newPts).getD i (-1, -1) = newPts.getD i (-1, -1) := by
    by_cases hl : s.lockInit
    · rw [if_pos hl]
      have hnk := dict_find_none_no_key s.lockMap i (hnl (by simpa using hl))
      rw [List.getD_eq_getElem?_getD, ← List.get?_eq_getElem?,
        apply_static_override_get_of_no_key i s.lockMap newPts hnk,
        List.get?_eq_getElem?, ← List.getD_eq_getElem?_getD]
    · rw [if_neg hl]
  have hnlock : ¬(s.lockInit = true ∧
      (dict_find s.lockMap i).isSome = true) := by
    intro hc
    rw [hnl hc.1] at hc
    simp at hc
  generalize hq : (if s.lockInit then apply_static_override s.lockMap newPts
      else newPts) = pts at hget hpts
  constructor
  · intro hdist
    rw [hget]
    have hv : ¬((pts.getD i (-1, -1)).1 = -1 ∨
        (pts.getD i (-1, -1)).2 = -1) := by
      rw [hpts]
      push_neg
      exact ⟨hvn1, hvn2⟩
    have hd : ((pts.getD i (-1, -1)).1 -
          (s.lastValid.getD i (-1, -1)).1) ^ 2 +
        ((pts.getD i (-1, -1)).2 - (s.lastValid.getD i (-1, -1)).2) ^ 2 <
        stab_threshold_sq := by
      rw [hpts]
      exact hdist
    rw [stab_one_accept_near s pts i hv hnlock hd, hpts]
  · intro hl0 hfar hstat
    have hid : pts = newPts := by
      rw [hl0] at hq
      simpa using hq.symm
    rw [hid] at hget
    rw [hget]
    have hv : ¬((newPts.getD i (-1, -1)).1 = -1 ∨
        (newPts.getD i (-1, -1)).2 = -1) := by
      push_neg
      exact ⟨hvn1, hvn2⟩
    have hcoord : check_coordinated_movement s.lastValid newPts i := by
      rw [check_coordinated_movement]
      refine Or.inr (Or.inl ?_)
      rw [movement_directions_stationary newPts s.lastValid i hstat]
      decide
    rw [stab_one_accept_coordinated s newPts i hv hnlock hfar hcoord]

/-- Counterexample to claim C2 as stated: previous points
`(0,0), (100,0), (200,0)`; new frame moves only point 0 to `(50,0)` —
a 50 px single-point jump with every other point stationary.  The claim
says the filter must hold `(0,0)`; the code outputs the new `(50,0)`,
because `check_coordinated_movement` finds fewer than 2 other moving
points and reports coordination. -/
theorem claim_C2_counterexample :
    (stabilize_keypoints
        ⟨[((0 : ℚ), (0 : ℚ)), ((100 : ℚ), (0 : ℚ)), ((200 : ℚ), (0 : ℚ))],
          false, [], 0, false⟩
        [((50 : ℚ), (0 : ℚ)), ((100 : ℚ), (0 : ℚ)),
          ((200 : ℚ), (0 : ℚ))]).1.get? 0 = some ((50 : ℚ), (0 : ℚ)) ∧
    (((50 : ℚ), (0 : ℚ)) : Pt) ≠ (((0 : ℚ), (0 : ℚ)) : Pt) := by
  constructor
  · have hget := stabilize_get
      ⟨[((0 : ℚ), (0 : ℚ)), ((100 : ℚ), (0 : ℚ)), ((200 : ℚ), (0 : ℚ))],
        false, [], 0, false⟩
      [((50 : ℚ), (0 : ℚ)), ((100 : ℚ), (0 : ℚ)), ((200 : ℚ), (0 : ℚ))]
      0 rfl rfl (by decide)
    rw [hget]
    have hdirs : movement_directions
        [((50 : ℚ), (0 : ℚ)), ((100 : ℚ), (0 : ℚ)), ((200 : ℚ), (0 : ℚ))]
        [((0 : ℚ), (0 : ℚ)), ((100 : ℚ), (0 : ℚ)), ((200 : ℚ), (0 : ℚ))]
        0 = [] := by
      apply movement_directions_stationary
      intro j hj
      match j with
      | 1 => rfl
      | 2 => rfl
      | 0 => exact absurd rfl hj
      | (n + 3) => rfl
    have hcoord : check_coordinated_movement
        [((0 : ℚ), (0 : ℚ)), ((100 : ℚ), (0 : ℚ)), ((200 : ℚ), (0 : ℚ))]
        [((50 : ℚ), (0 : ℚ)), ((100 : ℚ), (0 : ℚ)), ((200 : ℚ), (0 : ℚ))]
        0 := by
      rw [check_coordinated_movement]
      refine Or.inr (Or.inl ?_)
      rw [hdirs]
      decide
    rw [show (if (⟨[((0 : ℚ), (0 : ℚ)), ((100 : ℚ), (0 : ℚ)),
          ((200 : ℚ), (0 : ℚ))], false, [], 0, false⟩ : TrackState).lockInit
        then apply_static_override [] [((50 : ℚ), (0 : ℚ)),
          ((100 : ℚ), (0 : ℚ)), ((200 : ℚ), (0 : ℚ))]
        else [((50 : ℚ), (0 : ℚ)), ((100 : ℚ), (0 : ℚ)),
          ((200 : ℚ), (0 : ℚ))]) = [((50 : ℚ), (0 : ℚ)),
          ((100 : ℚ), (0 : ℚ)), ((200 : ℚ), (0 : ℚ))] from rfl]
    rw [stab_one_accept_coordinated _ _ 0 (by decide) (by decide)
      (by norm_num [stab_threshold_sq]) hcoord]
    rfl
  · decide

/-- Witness for the amended C2 at concrete inputs: a 5 px displacement
(below threshold) is passed through, and a 50 px single-point jump with
the other points stationary is ALSO passed through. -/
theorem claim_C2_witness :
    (stabilize_keypoints
        ⟨[((0 : ℚ), (0 : ℚ)), ((100 : ℚ), (0 : ℚ)), ((200 : ℚ), (0 : ℚ))],
          false, [], 0, false⟩
        [((3 : ℚ), (4 : ℚ)), ((100 : ℚ), (0 : ℚ)),
          ((200 : ℚ), (0 : ℚ))]).1.get? 0 = some ((3 : ℚ), (4 : ℚ)) ∧
    (stabilize_keypoints
        ⟨[((0 : ℚ), (0 : ℚ)), ((100 : ℚ), (0 : ℚ)), ((200 : ℚ), (0 : ℚ))],
          false, [], 0, false⟩
        [((50 : ℚ), (0 : ℚ)), ((100 : ℚ), (0 : ℚ)),
          ((200 : ℚ), (0 : ℚ))]).1.get? 0 = some ((50 : ℚ), (0 : ℚ)) := by
  constructor
  · exact (claim_C2_stabilization_threshold
      ⟨[((0 : ℚ), (0 : ℚ)), ((100 : ℚ), (0 : ℚ)), ((200 : ℚ), (0 : ℚ))],
        false, [], 0, false⟩
      [((3 : ℚ), (4 : ℚ)), ((100 : ℚ), (0 : ℚ)), ((200 : ℚ), (0 : ℚ))]
      0 rfl rfl (by decide) (fun h => by cases h) (by decide) (by decide)
      (by decide)).1 (by norm_num [stab_threshold_sq])
  · exact (claim_C2_stabilization_threshold
      ⟨[((0 : ℚ), (0 : ℚ)), ((100 : ℚ), (0 : ℚ)), ((200 : ℚ), (0 : ℚ))],
        false, [], 0, false⟩
      [((50 : ℚ), (0 : ℚ)), ((100 : ℚ), (0 : ℚ)), ((200 : ℚ), (0 : ℚ))]
      0 rfl rfl (by decide) (fun h => by cases h) (by decide) (by decide)
      (by decide)).2 rfl (by norm_num [stab_threshold_sq])
      (by
        intro j hj
        match j with
        | 1 => rfl
        | 2 => rfl
        | 0 => exact absurd rfl hj
        | (n + 3) => rfl)

/-- Every collected distance pair has its reference distance above the
10 px noise floor. -/
theorem ref_curr_dists_floor (kp1 kp2 : List RPt) (ms : List DMatch) :
    ∀ rc ∈ ref_curr_dists kp1 kp2 ms, 10 < rc.1 := by
  intro rc hrc
  rw [ref_curr_dists] at hrc
  simp only [List.mem_filterMap] at hrc
  obtain ⟨ij, _, hij⟩ := hrc
  by_cases h : 10 < rdist ((ms.map (fun m => kp1.getD m.queryIdx (0, 0))).getD
      ij.1 (0, 0)) ((ms.map (fun m => kp1.getD m.queryIdx (0, 0))).getD ij.2 (0, 0))
  · rw [if_pos h] at hij
    obtain rfl := (Option.some.injEq _ _).mp hij
    exact h
  · rw [if_neg h] at hij
    exact absurd hij (Option.noConfusion)

/-- The `ref_d > 0` refilter at line 956 is vacuous: the ratio list is
exactly the `curr / ref` map over the collected pairs. -/
theorem filterMap_ratio_of_pos (l : List (ℝ × ℝ))
    (h : ∀ rc ∈ l, 0 < rc.1) :
    l.filterMap (fun rc => if 0 < rc.1 then some (rc.2 / rc.1) else none) =
      l.map (fun rc => rc.2 / rc.1) := by
  induction l with
  | nil => rfl
  | cons rc rest ih =>
    rw [List.filterMap_cons, List.map_cons,
      if_pos (h rc (List.mem_cons_self rc rest)),
      ih (fun x hx => h x (List.mem_cons_of_mem rc hx))]

theorem scale_ratio_list_eq_map (kp1 kp2 : List RPt) (ms : List DMatch) :
    scale_ratio_list kp1 kp2 ms =
      (ref_curr_dists kp1 kp2 ms).map (fun rc => rc.2 / rc.1) := by
  rw [scale_ratio_list]
  exact filterMap_ratio_of_pos _ (fun rc hrc =>
    lt_trans (by norm_num) (ref_curr_dists_floor kp1 kp2 ms rc hrc))

/-- Claim C8: with at least 4 matches and at least one pair above the
noise floor, `estimate_scale_change` returns — and stores in
`last_detected_scale` — the exponentially smoothed value
`0.7 * previous + 0.3 * median(ratios)`, where the ratios are the
current/reference pairwise-distance quotients over all match pairs with
reference distance above 10 px; with fewer than 4 matches or no pair
above the floor it returns 1.0 and leaves the stored scale unchanged. -/
theorem claim_C8_scale_estimation (kp1 kp2 : List RPt) (ms : List DMatch)
    (lastScale : ℝ) :
    (4 ≤ ms.length → scale_ratio_list kp1 kp2 ms ≠ [] →
      estimate_scale_change kp1 kp2 ms lastScale =
        (lastScale * (7/10) + np_median (scale_ratio_list kp1 kp2 ms) * (3/10),
         lastScale * (7/10) +
           np_median (scale_ratio_list kp1 kp2 ms) * (3/10))) ∧
    (ms.length < 4 →
      estimate_scale_change kp1 kp2 ms lastScale = (1, lastScale)) ∧
    (ref_curr_dists kp1 kp2 ms = [] →
      estimate_scale_change kp1 kp2 ms lastScale = (1, lastScale)) ∧
    scale_ratio_list kp1 kp2 ms =
      (ref_curr_dists kp1 kp2 ms).map (fun rc => rc.2 / rc.1) := by
  refine ⟨?_, ?_, ?_, scale_ratio_list_eq_map kp1 kp2 ms⟩
  · intro h4 hne
    have hrc : ref_curr_dists kp1 kp2 ms ≠ [] := by
      intro h
      rw [scale_ratio_list_eq_map, h] at hne
      exact hne rfl
    rw [estimate_scale_change, if_neg (by omega),
      if_neg (by simp [hrc]), if_neg (by simp [hne])]
    rw [Prod.mk.injEq]
    constructor <;> (rw [scale_smoothing_factor]; ring_nf)
  · intro hlt
    rw [estimate_scale_change, if_pos hlt]
  · intro hemp
    rw [estimate_scale_change]
    by_cases hlt : ms.length < 4
    · rw [if_pos hlt]
    · rw [if_neg hlt, if_pos (by simp [hemp])]

/-- `np.median` of three equal values is that value. -/
theorem np_median_const3 (a : ℝ) : np_median [a, a, a] = a := by
  rw [np_median]
  have hperm : (([a, a, a] : List ℝ).mergeSort (fun x y => x ≤ y)).Perm
      [a, a, a] := List.mergeSort_perm _ _
  have heq : ([a, a, a] : List ℝ).mergeSort (fun x y => x ≤ y) =
      [a, a, a] := by
    have hrep : ([a, a, a] : List ℝ) = List.replicate 3 a := rfl
    rw [hrep] at hperm ⊢
    rw [List.eq_replicate]
    refine ⟨by rw [hperm.length_eq]; rfl, ?_⟩
    intro b hb
    exact List.eq_of_mem_replicate (hperm.mem_iff.mp hb)
  rw [heq]
  norm_num

/-- Reference keypoints of the C8 witness frame (three coincident
points and one 20 px away). -/
def c8_kp1 : List RPt := [(0, 0), (0, 0), (0, 0), (20, 0)]

/-- Current keypoints of the C8 witness frame (the far point halved). -/
def c8_kp2 : List RPt := [(0, 0), (0, 0), (0, 0), (10, 0)]

/-- The four identity matches of the C8 witness frame. -/
def c8_ms : List DMatch := [⟨0, 0, 0⟩, ⟨1, 1, 0⟩, ⟨2, 2, 0⟩, ⟨3, 3, 0⟩]

/-- Distance evaluation: coincident points. -/
theorem c8_rdist_zero : rdist ((0 : ℝ), (0 : ℝ)) ((0 : ℝ), (0 : ℝ)) = 0 := by
  rw [rdist]
  norm_num

/-- Distance evaluation: 20 px apart on the x-axis. -/
theorem c8_rdist_twenty :
    rdist ((0 : ℝ), (0 : ℝ)) ((20 : ℝ), (0 : ℝ)) = 20 := by
  rw [rdist]
  have h : ((0 : ℝ) - 20) ^ 2 + ((0 : ℝ) - 0) ^ 2 = 20 ^ 2 := by norm_num
  rw [h, Real.sqrt_sq (by norm_num : (0 : ℝ) ≤ 20)]

/-- Distance evaluation: 10 px apart on the x-axis. -/
theorem c8_rdist_ten :
    rdist ((0 : ℝ), (0 : ℝ)) ((10 : ℝ), (0 : ℝ)) = 10 := by
  rw [rdist]
  have h : ((0 : ℝ) - 10) ^ 2 + ((0 : ℝ) - 0) ^ 2 = 10 ^ 2 := by norm_num
  rw [h, Real.sqrt_sq (by norm_num : (0 : ℝ) ≤ 10)]

/-- The collected distance pairs of the C8 witness frame: only the three
pairs involving the far point clear the noise floor. -/
theorem c8_ref_curr :
    ref_curr_dists c8_kp1 c8_kp2 c8_ms = [(20, 10), (20, 10), (20, 10)] := by
  rw [ref_curr_dists]
  have hsrc : c8_ms.map (fun m => c8_kp1.getD m.queryIdx (0, 0)) =
      [((0 : ℝ), (0 : ℝ)), (0, 0), (0, 0), (20, 0)] := rfl
  have hdst : c8_ms.map (fun m => c8_kp2.getD m.trainIdx (0, 0)) =
      [((0 : ℝ), (0 : ℝ)), (0, 0), (0, 0), (10, 0)] := rfl
  have hip : idx_pairs c8_ms.length =
      [(0, 1), (0, 2), (0, 3), (1, 2), (1, 3), (2, 3)] := rfl
  rw [hsrc, hdst, hip]
  simp only [List.filterMap_cons, List.filterMap_nil,
    List.getD_cons_zero, List.getD_cons_succ,
    c8_rdist_zero, c8_rdist_twenty, c8_rdist_ten]
  norm_num

/-- Witness for C8: four matches, three coincident reference points and
one point 20 px out moving to 10 px; all collected ratios are 1/2, the
median is 1/2, and with a previous scale of 1.0 the estimator returns
and stores `0.7 * 1 + 0.3 * 0.5 = 0.85`. -/
theorem claim_C8_witness :
    estimate_scale_change c8_kp1 c8_kp2 c8_ms 1 = (17/20, 17/20) := by
  have hsr : scale_ratio_list c8_kp1 c8_kp2 c8_ms = [1/2, 1/2, 1/2] := by
    rw [scale_ratio_list_eq_map, c8_ref_curr]
    norm_num
  have h := (claim_C8_scale_estimation c8_kp1 c8_kp2 c8_ms 1).1
    (by rw [show c8_ms.length = 4 from rfl])
    (by rw [hsr]; simp)
  rw [h, hsr, np_median_const3]
  norm_num

end MagicQC
